import Mathlib

/-!
Verification of the per-connection peer transport engine
(network/framework2/src/peer.rs): writer-side priority arbitration and
large-message fragmentation, reader-side defragmentation and routing,
and cooperative shutdown.

The Rust code is shallowly embedded: byte buffers are lists of naturals,
the bounded mpsc queues are lists carried inside the writer state, the
u8 / u32 counters are naturals reduced mod 256 / mod 2^32 where the code
can overflow, and every Rust panic (`unwrap`, `panic!`, `unreachable!`,
out-of-range `split_off`) is an explicit `none` / `died` result.
-/

namespace Peer

/-- Byte buffers (`Vec<u8>` in the source) as lists of naturals. -/
abbrev Bytes := List Nat

/-- The error code carried by `NetworkMessage::Error`; `DisconnectCommand`
is the one variant the writer inspects (modelled as code 0). -/
def disconnectCommand : Nat := 0

/-- `NetworkMessage` from `protocols::wire::messaging::v1`: error/control
signal, RPC request, RPC response, or direct-send message.  Only the
fields the peer engine touches are kept. -/
inductive NetworkMessage where
  | Error (code : Nat)
  | RpcRequest (protocol_id : Nat) (request_id : Nat) (raw_request : Bytes)
  | RpcResponse (request_id : Nat) (raw_response : Bytes)
  | DirectSendMsg (protocol_id : Nat) (raw_msg : Bytes)
deriving DecidableEq

/-- The raw payload bytes of a message (empty for an error/control signal). -/
def payload : NetworkMessage → Bytes
  | .Error _ => []
  | .RpcRequest _ _ d => d
  | .RpcResponse _ d => d
  | .DirectSendMsg _ d => d

/-- Replace the payload bytes, keeping every other field (the effect of
mutating `raw_request` / `raw_response` / `raw_msg` in place). -/
def withPayload : NetworkMessage → Bytes → NetworkMessage
  | .Error c, _ => .Error c
  | .RpcRequest p r _, d => .RpcRequest p r d
  | .RpcResponse r _, d => .RpcResponse r d
  | .DirectSendMsg p _, d => .DirectSendMsg p d

/-- Whether the message is the error/control variant. -/
def isError : NetworkMessage → Bool
  | .Error _ => true
  | _ => false

/-- `NetworkMessage::data_len`.  Modelled from the spec for the `Error`
case (that method lives outside the embedded file): error messages always
fit in a single frame, so their length is taken as 0; for the other three
variants it is the payload length, as the code uses it. -/
def dataLen (m : NetworkMessage) : Nat := (payload m).length

/-- `StreamMessage` from `protocols::stream`: a stream header (first slice
plus declared total fragment count) or a numbered stream fragment. -/
inductive StreamMessage where
  | Header (request_id : Nat) (num_fragments : Nat) (message : NetworkMessage)
  | Fragment (request_id : Nat) (fragment_id : Nat) (raw_data : Bytes)
deriving DecidableEq

/-- `MultiplexMessage`: one framing unit on the wire. -/
inductive MultiplexMessage where
  | Message (m : NetworkMessage)
  | Stream (s : StreamMessage)
deriving DecidableEq

/-! ## Writer engine (`WriterContext`) -/

/-- Mutable state of `WriterContext::run`, with the two outbound queues
(`tokio` mpsc receivers) embedded as lists plus closed flags. -/
structure WriterContext where
  stream_request_id : Nat := 0
  large_message : Option Bytes := none
  large_fragment_id : Nat := 0
  send_large : Bool := false
  next_large_msg : Option NetworkMessage := none
  max_frame_size : Nat
  to_send : List NetworkMessage := []
  to_send_closed : Bool := false
  to_send_high_prio : List NetworkMessage := []
  to_send_high_prio_closed : Bool := false
deriving DecidableEq

/-- The fragment-count computation in `WriterContext::start_large`:
integer division followed by a while-loop that tops the quotient up while
`num_fragments * max_frame_size < data_len`.  For a positive frame size
the loop body runs at most once, which the conditional captures (the code
would panic on division by zero before entering the loop). -/
def numFragmentsCalc (len mfs : Nat) : Nat :=
  if len / mfs * mfs < len then len / mfs + 1 else len / mfs

/-- `WriterContext::next_large`: emit the next chunk of the in-progress
large message.  `none` is the `unwrap` panic when no large message is in
flight.  The fragment id is a `u8` incremented before use. -/
def nextLarge (w : WriterContext) : Option (MultiplexMessage × WriterContext) :=
  match w.large_message with
  | none => none
  | some blob =>
    let fid := (w.large_fragment_id + 1) % 256
    if w.max_frame_size < blob.length then
      some (.Stream (.Fragment w.stream_request_id fid (blob.take w.max_frame_size)),
        { w with large_message := some (blob.drop w.max_frame_size),
                 large_fragment_id := fid, send_large := false })
    else
      some (.Stream (.Fragment w.stream_request_id fid blob),
        { w with large_message := none, large_fragment_id := fid, send_large := false })

/-- `WriterContext::start_large`: begin a new fragment stream.  `none`
models the panics: fragment count above 255, the `unreachable!` on an
error message, and `split_off` out of range (payload shorter than the
frame size, impossible at both call sites). -/
def startLarge (w : WriterContext) (msg : NetworkMessage) : Option (MultiplexMessage × WriterContext) :=
  let sid := (w.stream_request_id + 1) % 4294967296
  let nf := numFragmentsCalc (dataLen msg) w.max_frame_size
  if 255 < nf then none
  else if isError msg then none
  else if dataLen msg < w.max_frame_size then none
  else
    some (.Stream (.Header sid nf (withPayload msg ((payload msg).take w.max_frame_size))),
      { w with stream_request_id := sid, send_large := false, large_fragment_id := 0,
               large_message := some ((payload msg).drop w.max_frame_size) })

/-- Result of the shared `try_recv Ok(msg)` body in
`try_high_prio_next_msg` / `try_next_msg`: oversized messages are stashed
in `next_large_msg` and a chunk of the current large message is sent
instead; small messages go out now with `send_large` set. -/
def onTryMsg (w : WriterContext) (msg : NetworkMessage) : Option (MultiplexMessage × WriterContext) :=
  if w.max_frame_size < dataLen msg then
    nextLarge { w with next_large_msg := some msg }
  else
    some (.Message msg, { w with send_large := true })

/-- Result of `WriterContext::try_high_prio_next_msg`. -/
inductive TryRes where
  | noMsg
  | died
  | got (mm : MultiplexMessage) (w : WriterContext)

/-- `WriterContext::try_high_prio_next_msg`: non-blocking poll of the
high-priority queue; any `try_recv` error is treated as no message. -/
def tryHighPrioNextMsg (w : WriterContext) : TryRes :=
  match w.to_send_high_prio with
  | [] => .noMsg
  | msg :: rest =>
    match onTryMsg { w with to_send_high_prio := rest } msg with
    | none => .died
    | some (mm, w1) => .got mm w1

/-- Result of `WriterContext::try_next_msg`. -/
inductive TryNextRes where
  | closedSrc
  | died
  | got (mm : MultiplexMessage) (w : WriterContext)

/-- `WriterContext::try_next_msg`: high-priority first, then a
non-blocking poll of the normal queue; on `Empty` continue with the next
chunk of the large message, on `Disconnected` end the task. -/
def tryNextMsg (w : WriterContext) : TryNextRes :=
  match tryHighPrioNextMsg w with
  | .died => .died
  | .got mm w1 => .got mm w1
  | .noMsg =>
    match w.to_send with
    | msg :: rest =>
      match onTryMsg { w with to_send := rest } msg with
      | none => .died
      | some (mm, w1) => .got mm w1
    | [] =>
      if w.to_send_closed then .closedSrc
      else
        match nextLarge w with
        | none => .died
        | some (mm, w1) => .got mm w1

/-- Outcome of the message-selection phase of one iteration of
`WriterContext::run`. -/
inductive ChooseRes where
  | chosen (mm : MultiplexMessage) (w : WriterContext)
  | halt (w : WriterContext)
  | wait (w : WriterContext)
  | died (w : WriterContext)

/-- The selection phase of one iteration of `WriterContext::run`: drain
the current large message (always, when `send_large` is set or a message
is staged), otherwise poll; with nothing in flight, start a staged
message, try the high-priority queue, then block on the select over both
queues and the shutdown signal.  The select is determinised: available
data first, then closed channels, then the shutdown signal. -/
def chooseMM (w : WriterContext) (shutdownFired : Bool) : ChooseRes :=
  if w.large_message.isSome then
    if w.send_large || w.next_large_msg.isSome then
      match nextLarge w with
      | none => .died w
      | some (mm, w1) => .chosen mm w1
    else
      match tryNextMsg w with
      | .closedSrc => .halt w
      | .died => .died w
      | .got mm w1 => .chosen mm w1
  else
    match w.next_large_msg with
    | some msg =>
      match startLarge { w with next_large_msg := none } msg with
      | none => .died w
      | some (mm, w1) => .chosen mm w1
    | none =>
      match tryHighPrioNextMsg w with
      | .died => .died w
      | .got mm w1 => .chosen mm w1
      | .noMsg =>
        match w.to_send with
        | msg :: rest =>
          if w.max_frame_size < dataLen msg then
            match startLarge { w with to_send := rest } msg with
            | none => .died w
            | some (mm, w1) => .chosen mm w1
          else .chosen (.Message msg) { w with to_send := rest }
        | [] =>
          if w.to_send_high_prio_closed then .halt w
          else if w.to_send_closed then .halt w
          else if shutdownFired then .halt w
          else .wait w

/-- Per-iteration environment of the writer task: messages arriving on
each queue before the iteration, senders closing, the shutdown signal
firing, and whether the socket write succeeds. -/
structure Env where
  hpArrive : List NetworkMessage := []
  normArrive : List NetworkMessage := []
  hpClose : Bool := false
  normClose : Bool := false
  shutdownFired : Bool := false
  writeOk : Bool := true
deriving DecidableEq

/-- The quiescent environment: nothing arrives, nothing closes, writes
succeed. -/
def quietEnv : Env := {}

/-- Deliver this iteration's arrivals and closures into the queues. -/
def applyEnv (w : WriterContext) (e : Env) : WriterContext :=
  { w with to_send := w.to_send ++ e.normArrive,
           to_send_closed := w.to_send_closed || e.normClose,
           to_send_high_prio := w.to_send_high_prio ++ e.hpArrive,
           to_send_high_prio_closed := w.to_send_high_prio_closed || e.hpClose }

/-- Result of one full iteration of `WriterContext::run`. -/
inductive WStep where
  | emit (mm : MultiplexMessage) (w : WriterContext)
  | stop (w : WriterContext)
  | blocked (w : WriterContext)
  | panicked (w : WriterContext)

/-- One full iteration of `WriterContext::run`: selection, the
`DisconnectCommand` check, then the select between the socket write and
the shutdown signal. -/
def writerStepE (w : WriterContext) (e : Env) : WStep :=
  let w1 := applyEnv w e
  match chooseMM w1 e.shutdownFired with
  | .died w2 => .panicked w2
  | .halt w2 => .stop w2
  | .wait w2 => .blocked w2
  | .chosen mm w2 =>
    if mm = .Message (.Error disconnectCommand) then .stop w2
    else if e.shutdownFired then .stop w2
    else if e.writeOk then .emit mm w2
    else .stop w2

/-- How a bounded run of the writer loop ended. -/
inductive WOutcome where
  | running
  | stopped
  | panicked
deriving DecidableEq

/-- Observable result of a bounded run of the writer loop: the framing
units written, the final state, whether `closed.close()` ran (it runs
exactly when the loop breaks), and how the run ended. -/
structure WRes where
  trace : List MultiplexMessage
  final : WriterContext
  closerClosed : Bool
  outcome : WOutcome
deriving DecidableEq

/-- Run `WriterContext::run` for one iteration per environment entry.
A `stop` is the loop breaking, after which `closed.close()` runs; a
panic aborts the task without closing the signal. -/
def writerRun (w : WriterContext) : List Env → WRes
  | [] => ⟨[], w, false, .running⟩
  | e :: rest =>
    match writerStepE w e with
    | .panicked w1 => ⟨[], w1, false, .panicked⟩
    | .stop w1 => ⟨[], w1, true, .stopped⟩
    | .blocked w1 =>
      let r := writerRun w1 rest
      ⟨r.trace, r.final, r.closerClosed, r.outcome⟩
    | .emit mm w1 =>
      let r := writerRun w1 rest
      ⟨mm :: r.trace, r.final, r.closerClosed, r.outcome⟩

/-! ## Reader engine (`ReaderContext`) -/

/-- The defragmentation fields of `ReaderContext` (the socket, registry
and rpc-matcher handles are modelled separately). -/
structure ReaderContext where
  current_stream_id : Nat := 0
  large_message : Option NetworkMessage := none
  fragment_index : Nat := 0
  num_fragments : Nat := 0
deriving DecidableEq

/-- Append fragment bytes into the matching payload field of the
assembly buffer (`extend_from_slice`); `none` is the `unreachable!`
panic on an error-message buffer. -/
def appendPayload : NetworkMessage → Bytes → Option NetworkMessage
  | .Error _, _ => none
  | .RpcRequest p r d, extra => some (.RpcRequest p r (d ++ extra))
  | .RpcResponse r d, extra => some (.RpcResponse r (d ++ extra))
  | .DirectSendMsg p d, extra => some (.DirectSendMsg p (d ++ extra))

/-- `ReaderContext::handle_stream`: headers (re)initialise the stream
state; fragments are accepted only when both the stream id and the
sequence number match, any mismatch zeroes the counters; an accepted
fragment extends the buffer, and when the incremented `u8` index equals
the declared count the assembled message is dispatched (the second
component).  `none` is the `unreachable!` panic. -/
def handleStream (r : ReaderContext) (f : StreamMessage) : Option (ReaderContext × Option NetworkMessage) :=
  match f with
  | .Header sid nf m =>
    some ({ current_stream_id := sid, large_message := some m,
            fragment_index := 1, num_fragments := nf }, none)
  | .Fragment sid fid d =>
    if sid ≠ r.current_stream_id then
      some ({ r with num_fragments := 0, fragment_index := 0 }, none)
    else if fid ≠ r.fragment_index then
      some ({ r with num_fragments := 0, fragment_index := 0 }, none)
    else
      match r.large_message with
      | none => some (r, none)
      | some lm =>
        match appendPayload lm d with
        | none => none
        | some lm1 =>
          let idx := (r.fragment_index + 1) % 256
          if idx = r.num_fragments then
            some ({ r with large_message := none, fragment_index := idx }, some lm1)
          else
            some ({ r with large_message := some lm1, fragment_index := idx }, none)

/-- Feed a list of decoded framing units through the reader loop,
collecting every complete message handed to `handle_message` (whole
messages directly, stream messages via defragmentation).  `none` is a
reader panic. -/
def runReaderMM (r : ReaderContext) : List MultiplexMessage → Option (ReaderContext × List NetworkMessage)
  | [] => some (r, [])
  | .Message m :: rest =>
    (runReaderMM r rest).map (fun p => (p.1, m :: p.2))
  | .Stream f :: rest =>
    match handleStream r f with
    | none => none
    | some (r1, d) =>
      (runReaderMM r1 rest).map (fun p => (p.1, d.toList ++ p.2))

/-- The messages dispatched to routing by a reader run (none if the
reader panicked). -/
def dispatchedOf : Option (ReaderContext × List NetworkMessage) → List NetworkMessage
  | none => []
  | some p => p.2

/-! ## Message routing (`ReaderContext::forward` / `handle_message`) -/

/-- One registered application handler: its declared protocol id and
whether its bounded inbound queue is currently full. -/
structure AppStub where
  protocol_id : Nat
  queue_full : Bool
deriving DecidableEq

/-- Counters and deliveries produced while routing one message:
forwarded messages, spawned rpc completions, and the miss / read / drop
counters of the observability surface. -/
structure ReadEffects where
  forwarded : List (Nat × NetworkMessage) := []
  rpcCompletions : List Nat := []
  missCount : Nat := 0
  missBytes : Nat := 0
  readMessages : Nat := 0
  readBytes : Nat := 0
  dropMessages : Nat := 0
  dropBytes : Nat := 0
deriving DecidableEq

/-- `ReaderContext::forward`: a single non-blocking `try_send` into the
application inbound queue; a full queue drops the message and bumps the
inbound-drop counters, success bumps the read counters; an unknown
protocol is only logged.  `none` is the `unreachable!` panic on a
mislabelled registry entry. -/
def forward (apps : Nat → Option AppStub) (protocol_id : Nat) (nmsg : NetworkMessage) : Option ReadEffects :=
  match apps protocol_id with
  | none => some {}
  | some app =>
    if app.protocol_id ≠ protocol_id then none
    else if app.queue_full then
      some { dropMessages := 1, dropBytes := dataLen nmsg }
    else
      some { forwarded := [(protocol_id, nmsg)], readMessages := 1, readBytes := dataLen nmsg }

/-- `ReaderContext::handle_message` together with the outbound RPC
matcher, which is an external collaborator.  Modelled from the spec: the
tracker maps a request id to a pending waiter and `remove` returns it
only if present; here it is the list of open request ids.  A response
whose id is found spawns an asynchronous completion; one not found bumps
the miss counter and is dropped. -/
def handleMessage (apps : Nat → Option AppStub) (tracker : List Nat) (nmsg : NetworkMessage) :
    Option (List Nat × ReadEffects) :=
  match nmsg with
  | .Error _ => some (tracker, {})
  | .RpcRequest pid _ _ =>
    (forward apps pid nmsg).map (fun eff => (tracker, eff))
  | .RpcResponse rid d =>
    if rid ∈ tracker then
      some (tracker.erase rid, { rpcCompletions := [rid] })
    else
      some (tracker, { missCount := 1, missBytes := d.length })
  | .DirectSendMsg pid _ =>
    (forward apps pid nmsg).map (fun eff => (tracker, eff))

/-! ## Derived shapes of a fragment stream -/

/-- The successive payload slices a large message is cut into: frames of
`mfs` bytes, with a final frame of at most `mfs` bytes (the recursion of
`next_large`; the `mfs = 0` guard only serves termination, the code
never runs with a zero frame size). -/
def chunksOf (mfs : Nat) (b : Bytes) : List Bytes :=
  if _h : b.length ≤ mfs ∨ mfs = 0 then [b]
  else b.take mfs :: chunksOf mfs (b.drop mfs)
termination_by b.length
decreasing_by simp [List.length_drop]; omega

/-- The fragment framing units a drained stream consists of: consecutive
fragment ids starting at `fid + 1`, one chunk each. -/
def fragUnits (sid : Nat) : Nat → List Bytes → List MultiplexMessage
  | _, [] => []
  | fid, d :: ds => .Stream (.Fragment sid (fid + 1) d) :: fragUnits sid (fid + 1) ds

/-- The exact framing units `start_large` plus the subsequent drain emit
for one oversized message: the header with the first frame-sized slice
and the declared count, then the numbered fragments. -/
def mkStreamUnits (mfs : Nat) (msg : NetworkMessage) : List MultiplexMessage :=
  .Stream (.Header 1 (numFragmentsCalc (dataLen msg) mfs)
      (withPayload msg ((payload msg).take mfs)))
    :: fragUnits 1 0 (chunksOf mfs ((payload msg).drop mfs))

/-! ## Arithmetic of the fragment count -/

theorem numFragmentsCalc_one (len mfs : Nat) (h : 0 < mfs) (h0 : 0 < len) (hle : len ≤ mfs) :
    numFragmentsCalc len mfs = 1 := by
  unfold numFragmentsCalc
  rcases Nat.lt_or_ge len mfs with hlt | hge
  · rw [Nat.div_eq_of_lt hlt]
    simp [h0]
  · have heq : len = mfs := le_antisymm hle hge
    subst heq
    rw [Nat.div_self h]
    simp

theorem numFragmentsCalc_step (len mfs : Nat) (h : 0 < mfs) (hgt : mfs < len) :
    numFragmentsCalc len mfs = numFragmentsCalc (len - mfs) mfs + 1 := by
  unfold numFragmentsCalc
  have hd : len / mfs = (len - mfs) / mfs + 1 := Nat.div_eq_sub_div h (le_of_lt hgt)
  rw [hd]
  have hmul : ((len - mfs) / mfs + 1) * mfs = (len - mfs) / mfs * mfs + mfs := by ring
  rw [hmul]
  by_cases hc : (len - mfs) / mfs * mfs < len - mfs
  · rw [if_pos (by omega), if_pos hc]
  · rw [if_neg (by omega), if_neg hc]

theorem numFragmentsCalc_pos (len mfs : Nat) (h0 : 0 < len) : 1 ≤ numFragmentsCalc len mfs := by
  unfold numFragmentsCalc
  by_cases hc : len / mfs * mfs < len
  · rw [if_pos hc]
    exact Nat.le_add_left 1 (len / mfs)
  · rw [if_neg hc]
    rcases Nat.eq_zero_or_pos (len / mfs) with hq | hq
    · rw [hq] at hc; simp at hc; omega
    · exact hq

theorem numFragmentsCalc_mul_ge (len mfs : Nat) (h : 0 < mfs) :
    len ≤ numFragmentsCalc len mfs * mfs := by
  unfold numFragmentsCalc
  have h1 := Nat.div_add_mod len mfs
  have h2 := Nat.mod_lt len h
  by_cases hc : len / mfs * mfs < len
  · rw [if_pos hc]
    have hmul : (len / mfs + 1) * mfs = mfs * (len / mfs) + mfs := by ring
    rw [hmul]
    omega
  · rw [if_neg hc]; omega

theorem numFragmentsCalc_two (len mfs : Nat) (h : 0 < mfs) (hgt : mfs < len) :
    2 ≤ numFragmentsCalc len mfs := by
  rw [numFragmentsCalc_step len mfs h hgt]
  have := numFragmentsCalc_pos (len - mfs) mfs (by omega)
  omega

theorem numFragmentsCalc_gt_255 (len mfs : Nat) (h : 0 < mfs) (hgt : 255 * mfs < len) :
    255 < numFragmentsCalc len mfs := by
  have := numFragmentsCalc_mul_ge len mfs h
  by_contra hle
  push_neg at hle
  have : numFragmentsCalc len mfs * mfs ≤ 255 * mfs := Nat.mul_le_mul_right mfs hle
  omega

theorem numFragmentsCalc_exact (k mfs : Nat) (h : 0 < mfs) :
    numFragmentsCalc (k * mfs) mfs = k := by
  unfold numFragmentsCalc
  rw [Nat.mul_div_cancel _ h]
  simp

theorem chunksOf_spec (mfs : Nat) (h : 0 < mfs) :
    ∀ (n : Nat) (b : Bytes), b.length ≤ n → b ≠ [] →
      (chunksOf mfs b).length = numFragmentsCalc b.length mfs ∧
      (chunksOf mfs b).flatten = b := by
  intro n
  induction n with
  | zero =>
    intro b hb hne
    have : b = [] := List.length_eq_zero.mp (Nat.le_zero.mp hb)
    exact absurd this hne
  | succ n ih =>
    intro b hb hne
    rw [chunksOf]
    by_cases hc : b.length ≤ mfs ∨ mfs = 0
    · rw [dif_pos hc]
      have hlen : 0 < b.length := List.length_pos.mpr hne
      have hle : b.length ≤ mfs := by omega
      constructor
      · simp [numFragmentsCalc_one b.length mfs h hlen hle]
      · simp
    · rw [dif_neg hc]
      push_neg at hc
      have hgt : mfs < b.length := by omega
      have hdrop : (b.drop mfs).length = b.length - mfs := by simp
      have hrec := ih (b.drop mfs) (by omega) (by
        intro hnil
        have : (b.drop mfs).length = 0 := by rw [hnil]; rfl
        omega)
      constructor
      · simp only [List.length_cons, hrec.1, hdrop]
        rw [numFragmentsCalc_step b.length mfs h hgt]
      · simp only [List.flatten_cons, hrec.2]
        exact List.take_append_drop mfs b

theorem chunksOf_ne_nil (mfs : Nat) (b : Bytes) : chunksOf mfs b ≠ [] := by
  rw [chunksOf]
  by_cases hc : b.length ≤ mfs ∨ mfs = 0
  · rw [dif_pos hc]; simp
  · rw [dif_neg hc]; simp

theorem chunksOf_small (mfs : Nat) (b : Bytes) (hle : b.length ≤ mfs) :
    chunksOf mfs b = [b] := by
  rw [chunksOf]
  rw [dif_pos (Or.inl hle)]

theorem chunksOf_big (mfs : Nat) (b : Bytes) (h : 0 < mfs) (hgt : mfs < b.length) :
    chunksOf mfs b = b.take mfs :: chunksOf mfs (b.drop mfs) := by
  rw [chunksOf]
  rw [dif_neg (by omega)]

/-! ## Payload helper lemmas -/

theorem payload_withPayload (m : NetworkMessage) (b : Bytes) (hm : isError m = false) :
    payload (withPayload m b) = b := by
  cases m <;> simp_all [isError, withPayload, payload]

theorem isError_withPayload (m : NetworkMessage) (b : Bytes) :
    isError (withPayload m b) = isError m := by
  cases m <;> rfl

theorem withPayload_withPayload (m : NetworkMessage) (a b : Bytes) :
    withPayload (withPayload m a) b = withPayload m b := by
  cases m <;> rfl

theorem withPayload_payload (m : NetworkMessage) :
    withPayload m (payload m) = m := by
  cases m <;> rfl

theorem appendPayload_eq (m : NetworkMessage) (d : Bytes) (hm : isError m = false) :
    appendPayload m d = some (withPayload m (payload m ++ d)) := by
  cases m <;> simp_all [isError, appendPayload, withPayload, payload]

theorem dataLen_withPayload (m : NetworkMessage) (b : Bytes) (hm : isError m = false) :
    dataLen (withPayload m b) = b.length := by
  rw [dataLen, payload_withPayload m b hm]

theorem readerAssemble (ds : List Bytes) : ∀ (sid fid nf : Nat) (m : NetworkMessage),
    isError m = false → nf = fid + 1 + ds.length → nf ≤ 255 → ds ≠ [] →
    runReaderMM ⟨sid, some m, fid + 1, nf⟩ (fragUnits sid fid ds)
      = some (⟨sid, none, nf, nf⟩, [withPayload m (payload m ++ ds.flatten)]) := by
  induction ds with
  | nil =>
    intro sid fid nf m hm hnf h255 hne
    exact absurd rfl hne
  | cons d ds ih =>
    intro sid fid nf m hm hnf h255 hne
    simp only [fragUnits, runReaderMM, handleStream]
    rw [if_neg (by simp), if_neg (by simp)]
    simp only [appendPayload_eq m d hm]
    have hmod : (fid + 1 + 1) % 256 = fid + 2 := by
      apply Nat.mod_eq_of_lt
      simp only [List.length_cons] at hnf
      omega
    rw [hmod]
    rcases List.eq_nil_or_concat ds with hds | hcat
    case inl =>
      subst hds
      simp only [List.length_cons, List.length_nil] at hnf
      have hnf2 : nf = fid + 2 := by omega
      subst hnf2
      rw [if_pos rfl]
      simp [runReaderMM]
    case inr =>
      have hdsne : ds ≠ [] := by
        rcases hcat with ⟨l, x, hds⟩
        subst hds
        simp
      have hdspos : 0 < ds.length := List.length_pos.mpr hdsne
      simp only [List.length_cons] at hnf
      rw [if_neg (by omega)]
      simp only [runReaderMM]
      have ih2 := ih sid (fid + 1) nf (withPayload m (payload m ++ d))
        (by rw [isError_withPayload]; exact hm) (by omega) h255 hdsne
      rw [ih2]
      simp [withPayload_withPayload, payload_withPayload m _ hm, List.flatten_cons,
        List.append_assoc]

/-! ## Unfolding lemmas for bounded writer runs -/

theorem writerRun_cons_emit {w : WriterContext} {e : Env} {mm : MultiplexMessage}
    {w1 : WriterContext} {rest : List Env} (h : writerStepE w e = .emit mm w1) :
    writerRun w (e :: rest) =
      ⟨mm :: (writerRun w1 rest).trace, (writerRun w1 rest).final,
        (writerRun w1 rest).closerClosed, (writerRun w1 rest).outcome⟩ := by
  simp [writerRun, h]

theorem writerRun_cons_stop {w : WriterContext} {e : Env} {w1 : WriterContext}
    {rest : List Env} (h : writerStepE w e = .stop w1) :
    writerRun w (e :: rest) = ⟨[], w1, true, .stopped⟩ := by
  simp [writerRun, h]

theorem writerRun_cons_blocked {w : WriterContext} {e : Env} {w1 : WriterContext}
    {rest : List Env} (h : writerStepE w e = .blocked w1) :
    writerRun w (e :: rest) =
      ⟨(writerRun w1 rest).trace, (writerRun w1 rest).final,
        (writerRun w1 rest).closerClosed, (writerRun w1 rest).outcome⟩ := by
  simp [writerRun, h]

theorem applyEnv_quiet (w : WriterContext) : applyEnv w quietEnv = w := by
  simp [applyEnv, quietEnv]

theorem writerStepE_chosen {w : WriterContext} {e : Env} {mm : MultiplexMessage}
    {w2 : WriterContext} (h : chooseMM (applyEnv w e) e.shutdownFired = .chosen mm w2)
    (hnd : mm ≠ .Message (.Error disconnectCommand))
    (hsf : e.shutdownFired = false) (hwk : e.writeOk = true) :
    writerStepE w e = .emit mm w2 := by
  rw [hsf] at h
  simp [writerStepE, h, hnd, hsf, hwk]

theorem writerDrain (mfs : Nat) (hm : 0 < mfs) :
    ∀ (n : Nat) (rest : Bytes) (k sid fid : Nat) (sl : Bool),
      rest.length ≤ n → rest ≠ [] → numFragmentsCalc rest.length mfs = k → fid + k ≤ 255 →
      writerRun ⟨sid, some rest, fid, sl, none, mfs, [], false, [], false⟩
          (List.replicate k quietEnv)
        = ⟨fragUnits sid fid (chunksOf mfs rest),
           ⟨sid, none, fid + k, false, none, mfs, [], false, [], false⟩, false, .running⟩ := by
  intro n
  induction n with
  | zero =>
    intro rest k sid fid sl hle hne hk h255
    have : rest = [] := List.length_eq_zero.mp (Nat.le_zero.mp hle)
    exact absurd this hne
  | succ n ih =>
    intro rest k sid fid sl hle hne hk h255
    have hpos : 0 < rest.length := List.length_pos.mpr hne
    have hk1 : 1 ≤ k := hk ▸ numFragmentsCalc_pos rest.length mfs hpos
    obtain ⟨q, rfl⟩ : ∃ q, k = q + 1 := ⟨k - 1, by omega⟩
    rw [List.replicate_succ]
    have hmod : (fid + 1) % 256 = fid + 1 := Nat.mod_eq_of_lt (by omega)
    by_cases hlen : mfs < rest.length
    · -- more than one chunk left
      have hchoose : chooseMM ⟨sid, some rest, fid, sl, none, mfs, [], false, [], false⟩ false
          = .chosen (.Stream (.Fragment sid (fid + 1) (rest.take mfs)))
              ⟨sid, some (rest.drop mfs), fid + 1, false, none, mfs, [], false, [], false⟩ := by
        cases sl <;> simp [chooseMM, tryNextMsg, tryHighPrioNextMsg, nextLarge, hmod, hlen]
      have hstep : writerStepE ⟨sid, some rest, fid, sl, none, mfs, [], false, [], false⟩ quietEnv
          = .emit (.Stream (.Fragment sid (fid + 1) (rest.take mfs)))
              ⟨sid, some (rest.drop mfs), fid + 1, false, none, mfs, [], false, [], false⟩ := by
        apply writerStepE_chosen
        · rw [applyEnv_quiet]; exact hchoose
        · simp
        · rfl
        · rfl
      rw [writerRun_cons_emit hstep]
      have hq : numFragmentsCalc (rest.drop mfs).length mfs = q := by
        have hdrop : (rest.drop mfs).length = rest.length - mfs := by simp
        have := numFragmentsCalc_step rest.length mfs hm hlen
        rw [hdrop]
        omega
      have hrec := ih (rest.drop mfs) q sid (fid + 1) false
        (by simp; omega)
        (by intro hnil
            have h0 : (rest.drop mfs).length = 0 := by rw [hnil]; rfl
            simp at h0
            omega)
        hq (by omega)
      rw [hrec]
      rw [chunksOf_big mfs rest hm hlen]
      simp only [fragUnits]
      have harith : fid + 1 + q = fid + (q + 1) := by omega
      rw [harith]
    · -- final chunk
      push_neg at hlen
      have hkone : numFragmentsCalc rest.length mfs = 1 :=
        numFragmentsCalc_one rest.length mfs hm hpos hlen
      have hq0 : q = 0 := by omega
      subst hq0
      have hchoose : chooseMM ⟨sid, some rest, fid, sl, none, mfs, [], false, [], false⟩ false
          = .chosen (.Stream (.Fragment sid (fid + 1) rest))
              ⟨sid, none, fid + 1, false, none, mfs, [], false, [], false⟩ := by
        cases sl <;> simp [chooseMM, tryNextMsg, tryHighPrioNextMsg, nextLarge, hmod,
          Nat.not_lt.mpr hlen]
      have hstep : writerStepE ⟨sid, some rest, fid, sl, none, mfs, [], false, [], false⟩ quietEnv
          = .emit (.Stream (.Fragment sid (fid + 1) rest))
              ⟨sid, none, fid + 1, false, none, mfs, [], false, [], false⟩ := by
        apply writerStepE_chosen
        · rw [applyEnv_quiet]; exact hchoose
        · simp
        · rfl
        · rfl
      rw [writerRun_cons_emit hstep]
      rw [chunksOf_small mfs rest hlen]
      simp [writerRun, fragUnits]

theorem fragUnits_length (sid : Nat) :
    ∀ (fid : Nat) (ds : List Bytes), (fragUnits sid fid ds).length = ds.length := by
  intro fid ds
  induction ds generalizing fid with
  | nil => rfl
  | cons d ds ih => simp [fragUnits, ih]

/-- C1: an application message (RPC request, RPC response, or direct-send)
whose payload exceeds the frame size, with derived fragment count
`ceil(len / max_frame_size)` at most 255, is emitted by the writer as
exactly that many framing units — one stream header carrying the first
`max_frame_size` bytes and declaring the count, then fragments numbered
1, 2, ... — and feeding those units in order into the reader rebuilds the
original message byte-for-byte. -/
theorem c1_large_message_round_trip (mfs : Nat) (msg : NetworkMessage) (r0 : ReaderContext)
    (hm : 0 < mfs) (hbig : mfs < dataLen msg)
    (h255 : numFragmentsCalc (dataLen msg) mfs ≤ 255) (hErr : isError msg = false) :
    (writerRun ⟨0, none, 0, false, none, mfs, [msg], false, [], false⟩
        (List.replicate (numFragmentsCalc (dataLen msg) mfs) quietEnv)).trace
      = mkStreamUnits mfs msg ∧
    (mkStreamUnits mfs msg).length = numFragmentsCalc (dataLen msg) mfs ∧
    runReaderMM r0 (mkStreamUnits mfs msg)
      = some (⟨1, none, numFragmentsCalc (dataLen msg) mfs,
                numFragmentsCalc (dataLen msg) mfs⟩, [msg]) := by
  have hk2 : 2 ≤ numFragmentsCalc (dataLen msg) mfs := numFragmentsCalc_two _ mfs hm hbig
  obtain ⟨q, hq⟩ : ∃ q, numFragmentsCalc (dataLen msg) mfs = q + 1 :=
    ⟨numFragmentsCalc (dataLen msg) mfs - 1, by omega⟩
  have hrest : ((payload msg).drop mfs).length = dataLen msg - mfs := by
    simp [dataLen]
  have hrestne : (payload msg).drop mfs ≠ [] := by
    intro hnil
    have h0 : ((payload msg).drop mfs).length = 0 := by rw [hnil]; rfl
    rw [hrest] at h0
    omega
  have hqfrag : numFragmentsCalc ((payload msg).drop mfs).length mfs = q := by
    have := numFragmentsCalc_step (dataLen msg) mfs hm hbig
    rw [hrest]
    omega
  have hchunks := chunksOf_spec mfs hm ((payload msg).drop mfs).length ((payload msg).drop mfs)
    (le_refl _) hrestne
  -- the first iteration emits the stream header
  have hstart : startLarge ⟨0, none, 0, false, none, mfs, [], false, [], false⟩ msg
      = some (.Stream (.Header 1 (numFragmentsCalc (dataLen msg) mfs)
            (withPayload msg ((payload msg).take mfs))),
          ⟨1, some ((payload msg).drop mfs), 0, false, none, mfs, [], false, [], false⟩) := by
    simp [startLarge, hErr, Nat.not_lt.mpr (le_of_lt hbig), Nat.not_lt.mpr h255]
  have hchoose : chooseMM ⟨0, none, 0, false, none, mfs, [msg], false, [], false⟩ false
      = .chosen (.Stream (.Header 1 (numFragmentsCalc (dataLen msg) mfs)
            (withPayload msg ((payload msg).take mfs))))
          ⟨1, some ((payload msg).drop mfs), 0, false, none, mfs, [], false, [], false⟩ := by
    simp [chooseMM, tryHighPrioNextMsg, hbig, hstart]
  have hstep : writerStepE ⟨0, none, 0, false, none, mfs, [msg], false, [], false⟩ quietEnv
      = .emit (.Stream (.Header 1 (numFragmentsCalc (dataLen msg) mfs)
            (withPayload msg ((payload msg).take mfs))))
          ⟨1, some ((payload msg).drop mfs), 0, false, none, mfs, [], false, [], false⟩ := by
    apply writerStepE_chosen
    · rw [applyEnv_quiet]; exact hchoose
    · simp
    · rfl
    · rfl
  have hdrain := writerDrain mfs hm ((payload msg).drop mfs).length ((payload msg).drop mfs)
    q 1 0 false (le_refl _) hrestne hqfrag (by omega)
  refine ⟨?_, ?_, ?_⟩
  · rw [hq, List.replicate_succ, writerRun_cons_emit hstep, hdrain]
    rw [mkStreamUnits, hq]
  · rw [mkStreamUnits]
    simp only [List.length_cons, fragUnits_length, hchunks.1, hqfrag]
    omega
  · rw [mkStreamUnits]
    have hheader : handleStream r0 (.Header 1 (numFragmentsCalc (dataLen msg) mfs)
        (withPayload msg ((payload msg).take mfs)))
        = some (⟨1, some (withPayload msg ((payload msg).take mfs)), 1,
            numFragmentsCalc (dataLen msg) mfs⟩, none) := by
      simp [handleStream]
    simp only [runReaderMM, hheader]
    have hassemble := readerAssemble (chunksOf mfs ((payload msg).drop mfs)) 1 0
      (numFragmentsCalc (dataLen msg) mfs) (withPayload msg ((payload msg).take mfs))
      (by rw [isError_withPayload]; exact hErr)
      (by rw [hchunks.1, hqfrag]; omega)
      h255 (chunksOf_ne_nil mfs _)
    rw [hassemble]
    simp only [Option.map_some, Option.toList, List.nil_append]
    rw [withPayload_withPayload, payload_withPayload msg _ hErr, hchunks.2,
      List.take_append_drop]
    rw [withPayload_payload]
    simp

/-- Witness for C1 at frame size 2 and a 5-byte direct-send payload
(3 fragments). -/
theorem c1_large_message_round_trip_witness :
    (0 < 2 ∧ 2 < dataLen (.DirectSendMsg 0 [1, 2, 3, 4, 5]) ∧
      numFragmentsCalc (dataLen (.DirectSendMsg 0 [1, 2, 3, 4, 5])) 2 ≤ 255 ∧
      isError (.DirectSendMsg 0 [1, 2, 3, 4, 5]) = false) ∧
    ((writerRun ⟨0, none, 0, false, none, 2, [.DirectSendMsg 0 [1, 2, 3, 4, 5]], false, [], false⟩
        (List.replicate (numFragmentsCalc (dataLen (.DirectSendMsg 0 [1, 2, 3, 4, 5])) 2) quietEnv)).trace
      = mkStreamUnits 2 (.DirectSendMsg 0 [1, 2, 3, 4, 5]) ∧
    (mkStreamUnits 2 (.DirectSendMsg 0 [1, 2, 3, 4, 5])).length
      = numFragmentsCalc (dataLen (.DirectSendMsg 0 [1, 2, 3, 4, 5])) 2 ∧
    runReaderMM ⟨0, none, 0, 0⟩ (mkStreamUnits 2 (.DirectSendMsg 0 [1, 2, 3, 4, 5]))
      = some (⟨1, none, numFragmentsCalc (dataLen (.DirectSendMsg 0 [1, 2, 3, 4, 5])) 2,
          numFragmentsCalc (dataLen (.DirectSendMsg 0 [1, 2, 3, 4, 5])) 2⟩,
          [.DirectSendMsg 0 [1, 2, 3, 4, 5]])) :=
  ⟨⟨by decide, by decide, by decide, by decide⟩,
    c1_large_message_round_trip 2 (.DirectSendMsg 0 [1, 2, 3, 4, 5]) ⟨0, none, 0, 0⟩
      (by decide) (by decide) (by decide) (by decide)⟩

/-- C2 counterexample: with frame size 2, a 6-byte (3-fragment)
direct-send message on the normal queue, and a small high-priority
message arriving right after the stream header goes out, the writer
emits the small message immediately after the header — between the
stream fragments — not after the stream has drained, refuting the
claimed wire order [header, fragment 2, fragment 3, small]. -/
theorem c2_counterexample :
    (writerRun ⟨0, none, 0, false, none, 2, [.DirectSendMsg 0 [1, 2, 3, 4, 5, 6]], false, [], false⟩
        [quietEnv, { hpArrive := [.DirectSendMsg 7 [9]] }, quietEnv, quietEnv]).trace
      = [.Stream (.Header 1 3 (.DirectSendMsg 0 [1, 2])),
         .Message (.DirectSendMsg 7 [9]),
         .Stream (.Fragment 1 1 [3, 4]),
         .Stream (.Fragment 1 2 [5, 6])] ∧
    (writerRun ⟨0, none, 0, false, none, 2, [.DirectSendMsg 0 [1, 2, 3, 4, 5, 6]], false, [], false⟩
        [quietEnv, { hpArrive := [.DirectSendMsg 7 [9]] }, quietEnv, quietEnv]).trace
      ≠ [.Stream (.Header 1 3 (.DirectSendMsg 0 [1, 2])),
         .Stream (.Fragment 1 1 [3, 4]),
         .Stream (.Fragment 1 2 [5, 6]),
         .Message (.DirectSendMsg 7 [9])] := by
  constructor
  · decide
  · decide

/-- C2 amended: in the 3-fragment scenario with a small high-priority
message arriving right after the stream header, the writer wire order is
header, then the small high-priority message, then fragments 2 and 3:
small messages of either priority are interleaved mid-stream as whole
framing units (which cannot disturb reassembly), and only another
oversized message is deferred to the stream boundary. -/
theorem c2_amended_small_high_prio_interleaves (mfs p0 p1 : Nat) (b s : Bytes)
    (hm : 0 < mfs) (hb : b.length = 3 * mfs) (hs : s.length ≤ mfs) :
    (writerRun ⟨0, none, 0, false, none, mfs, [.DirectSendMsg p0 b], false, [], false⟩
        [quietEnv, { hpArrive := [.DirectSendMsg p1 s] }, quietEnv, quietEnv]).trace
      = [.Stream (.Header 1 3 (.DirectSendMsg p0 (b.take mfs))),
         .Message (.DirectSendMsg p1 s),
         .Stream (.Fragment 1 1 ((b.drop mfs).take mfs)),
         .Stream (.Fragment 1 2 ((b.drop mfs).drop mfs))] := by
  have hdl : dataLen (.DirectSendMsg p0 b) = 3 * mfs := by simp [dataLen, payload, hb]
  have hnf : numFragmentsCalc (dataLen (.DirectSendMsg p0 b)) mfs = 3 := by
    rw [hdl]
    exact numFragmentsCalc_exact 3 mfs hm
  have hbig : mfs < dataLen (.DirectSendMsg p0 b) := by rw [hdl]; omega
  -- step 1: start the stream, emit the header
  have hstart : startLarge ⟨0, none, 0, false, none, mfs, [], false, [], false⟩
      (.DirectSendMsg p0 b)
      = some (.Stream (.Header 1 3 (.DirectSendMsg p0 (b.take mfs))),
          ⟨1, some (b.drop mfs), 0, false, none, mfs, [], false, [], false⟩) := by
    simp [startLarge, hnf, isError, Nat.not_lt.mpr (le_of_lt hbig), withPayload, payload]
  have hchoose1 : chooseMM ⟨0, none, 0, false, none, mfs, [.DirectSendMsg p0 b], false, [], false⟩ false
      = .chosen (.Stream (.Header 1 3 (.DirectSendMsg p0 (b.take mfs))))
          ⟨1, some (b.drop mfs), 0, false, none, mfs, [], false, [], false⟩ := by
    simp [chooseMM, tryHighPrioNextMsg, hbig, hstart]
  have hstep1 : writerStepE ⟨0, none, 0, false, none, mfs, [.DirectSendMsg p0 b], false, [], false⟩
      quietEnv
      = .emit (.Stream (.Header 1 3 (.DirectSendMsg p0 (b.take mfs))))
          ⟨1, some (b.drop mfs), 0, false, none, mfs, [], false, [], false⟩ := by
    apply writerStepE_chosen
    · rw [applyEnv_quiet]; exact hchoose1
    · simp
    · rfl
    · rfl
  -- step 2: the small high-priority message goes out mid-stream
  have happly2 : applyEnv ⟨1, some (b.drop mfs), 0, false, none, mfs, [], false, [], false⟩
      { hpArrive := [.DirectSendMsg p1 s] }
      = ⟨1, some (b.drop mfs), 0, false, none, mfs, [], false, [.DirectSendMsg p1 s], false⟩ := rfl
  have hchoose2 : chooseMM
      ⟨1, some (b.drop mfs), 0, false, none, mfs, [], false, [.DirectSendMsg p1 s], false⟩ false
      = .chosen (.Message (.DirectSendMsg p1 s))
          ⟨1, some (b.drop mfs), 0, true, none, mfs, [], false, [], false⟩ := by
    have hsmall : ¬ (mfs < dataLen (.DirectSendMsg p1 s)) := by
      simp [dataLen, payload]
      omega
    simp [chooseMM, tryNextMsg, tryHighPrioNextMsg, onTryMsg, hsmall]
  have hstep2 : writerStepE ⟨1, some (b.drop mfs), 0, false, none, mfs, [], false, [], false⟩
      { hpArrive := [.DirectSendMsg p1 s] }
      = .emit (.Message (.DirectSendMsg p1 s))
          ⟨1, some (b.drop mfs), 0, true, none, mfs, [], false, [], false⟩ := by
    apply writerStepE_chosen
    · rw [happly2]; exact hchoose2
    · simp [disconnectCommand]
    · rfl
    · rfl
  -- steps 3 and 4: drain the two remaining fragments
  have hdroplen : (b.drop mfs).length = 2 * mfs := by
    simp [hb]
    omega
  have hdropne : b.drop mfs ≠ [] := by
    intro hnil
    have h0 : (b.drop mfs).length = 0 := by rw [hnil]; rfl
    rw [hdroplen] at h0
    omega
  have hq2 : numFragmentsCalc (b.drop mfs).length mfs = 2 := by
    rw [hdroplen]
    exact numFragmentsCalc_exact 2 mfs hm
  have hdrain := writerDrain mfs hm (b.drop mfs).length (b.drop mfs) 2 1 0 true
    (le_refl _) hdropne hq2 (by omega)
  have hrepl : List.replicate 2 quietEnv = [quietEnv, quietEnv] := rfl
  rw [hrepl] at hdrain
  rw [writerRun_cons_emit hstep1, writerRun_cons_emit hstep2, hdrain]
  have hchunks : chunksOf mfs (b.drop mfs) = [(b.drop mfs).take mfs, (b.drop mfs).drop mfs] := by
    rw [chunksOf_big mfs (b.drop mfs) hm (by omega)]
    rw [chunksOf_small mfs ((b.drop mfs).drop mfs) (by simp [hdroplen]; omega)]
  rw [hchunks]
  simp [fragUnits]

/-- Witness for the amended C2 at frame size 2. -/
theorem c2_amended_small_high_prio_interleaves_witness :
    (0 < 2 ∧ ([1, 2, 3, 4, 5, 6] : Bytes).length = 3 * 2 ∧ ([9] : Bytes).length ≤ 2) ∧
    (writerRun ⟨0, none, 0, false, none, 2, [.DirectSendMsg 0 [1, 2, 3, 4, 5, 6]], false, [], false⟩
        [quietEnv, { hpArrive := [.DirectSendMsg 7 [9]] }, quietEnv, quietEnv]).trace
      = [.Stream (.Header 1 3 (.DirectSendMsg 0 (([1, 2, 3, 4, 5, 6] : Bytes).take 2))),
         .Message (.DirectSendMsg 7 [9]),
         .Stream (.Fragment 1 1 ((([1, 2, 3, 4, 5, 6] : Bytes).drop 2).take 2)),
         .Stream (.Fragment 1 2 ((([1, 2, 3, 4, 5, 6] : Bytes).drop 2).drop 2))] :=
  ⟨⟨by decide, by decide, by decide⟩,
    c2_amended_small_high_prio_interleaves 2 0 7 [1, 2, 3, 4, 5, 6] [9]
      (by decide) (by decide) (by decide)⟩

/-- C3 counterexample: a fragment with a mismatched stream id resets the
counters but the partially assembled message stays in the receiver state
(`large_message` is still `some`), refuting the claim that the partial
assembly buffer is discarded on mismatch. -/
theorem c3_counterexample :
    handleStream ⟨7, some (.DirectSendMsg 1 [1, 2]), 2, 3⟩ (.Fragment 9 2 [5])
      = some (⟨7, some (.DirectSendMsg 1 [1, 2]), 0, 0⟩, none) ∧
    (⟨7, some (.DirectSendMsg 1 [1, 2]), 0, 0⟩ : ReaderContext).large_message ≠ none := by
  constructor
  · decide
  · decide

/-- C3 amended: a fragment whose stream id differs from the current one,
or whose sequence number differs from the next expected value, is
rejected: the declared fragment count and next-expected index are reset
to 0 and nothing is dispatched, but the partial assembly buffer is
retained in the receiver state (it is only replaced by the next stream
header). -/
theorem c3_amended_mismatch_resets_counters_keeps_buffer (r : ReaderContext)
    (sid fid : Nat) (d : Bytes) (h : sid ≠ r.current_stream_id ∨ fid ≠ r.fragment_index) :
    handleStream r (.Fragment sid fid d)
      = some ({ r with num_fragments := 0, fragment_index := 0 }, none) := by
  by_cases hsid : sid ≠ r.current_stream_id
  · simp [handleStream, hsid]
  · have hfid : fid ≠ r.fragment_index := by tauto
    simp [handleStream, hsid, hfid]

/-- Witness for the amended C3: a wrong-sequence-number fragment on the
current stream. -/
theorem c3_amended_witness :
    ((9 : Nat) ≠ (⟨7, some (.DirectSendMsg 1 [1, 2]), 2, 3⟩ : ReaderContext).current_stream_id ∨
      (2 : Nat) ≠ (⟨7, some (.DirectSendMsg 1 [1, 2]), 2, 3⟩ : ReaderContext).fragment_index) ∧
    handleStream ⟨7, some (.DirectSendMsg 1 [1, 2]), 2, 3⟩ (.Fragment 9 2 [5])
      = some ({ (⟨7, some (.DirectSendMsg 1 [1, 2]), 2, 3⟩ : ReaderContext) with
          num_fragments := 0, fragment_index := 0 }, none) :=
  ⟨Or.inl (by decide),
    c3_amended_mismatch_resets_counters_keeps_buffer ⟨7, some (.DirectSendMsg 1 [1, 2]), 2, 3⟩
      9 2 [5] (Or.inl (by decide))⟩

set_option maxRecDepth 100000 in
/-- C5 counterexample: a payload of exactly 255 frame sizes derives a
fragment count of exactly 255, which does not trip the `> 255` guard:
`start_large` succeeds (no fail-fast) and emits a header declaring 255
fragments, refuting the claim that this size fails fast. -/
theorem c5_counterexample :
    (startLarge ⟨0, none, 0, false, none, 1, [], false, [], false⟩
        (.DirectSendMsg 0 (List.replicate 255 7))).isSome = true ∧
    numFragmentsCalc (dataLen (.DirectSendMsg 0 (List.replicate 255 7))) 1 = 255 := by
  constructor
  · decide
  · decide

/-- C5 amended: starting fragmentation fails fast exactly when the
derived fragment count exceeds 255, i.e. when the payload exceeds
255 × max_frame_size; a payload of exactly 255 × max_frame_size derives
count 255 and is fragmented successfully. -/
theorem c5_amended_fail_fast_only_above_255 (w : WriterContext) (msg big : NetworkMessage)
    (hm : 0 < w.max_frame_size) (hErr : isError msg = false)
    (hlen : dataLen msg = 255 * w.max_frame_size)
    (hbig : 255 * w.max_frame_size < dataLen big) :
    (startLarge w msg).isSome = true ∧ startLarge w big = none := by
  constructor
  · have hnf : numFragmentsCalc (dataLen msg) w.max_frame_size = 255 := by
      rw [hlen]
      exact numFragmentsCalc_exact 255 w.max_frame_size hm
    have hge : ¬ (dataLen msg < w.max_frame_size) := by
      rw [hlen]
      push_neg
      calc w.max_frame_size = 1 * w.max_frame_size := by ring
        _ ≤ 255 * w.max_frame_size := Nat.mul_le_mul_right _ (by omega)
    simp [startLarge, hnf, hErr, hge]
  · have hnf : 255 < numFragmentsCalc (dataLen big) w.max_frame_size :=
      numFragmentsCalc_gt_255 (dataLen big) w.max_frame_size hm hbig
    simp [startLarge, hnf]

set_option maxRecDepth 100000 in
/-- Witness for the amended C5 at frame size 1: a 255-byte payload
fragments, a 256-byte payload fails fast. -/
theorem c5_amended_witness :
    (0 < (⟨0, none, 0, false, none, 1, [], false, [], false⟩ : WriterContext).max_frame_size ∧
      isError (.DirectSendMsg 0 (List.replicate 255 7)) = false ∧
      dataLen (.DirectSendMsg 0 (List.replicate 255 7))
        = 255 * (⟨0, none, 0, false, none, 1, [], false, [], false⟩ : WriterContext).max_frame_size ∧
      255 * (⟨0, none, 0, false, none, 1, [], false, [], false⟩ : WriterContext).max_frame_size
        < dataLen (.DirectSendMsg 0 (List.replicate 256 7))) ∧
    ((startLarge ⟨0, none, 0, false, none, 1, [], false, [], false⟩
        (.DirectSendMsg 0 (List.replicate 255 7))).isSome = true ∧
      startLarge ⟨0, none, 0, false, none, 1, [], false, [], false⟩
        (.DirectSendMsg 0 (List.replicate 256 7)) = none) :=
  ⟨⟨by decide, by decide, by decide, by decide⟩,
    c5_amended_fail_fast_only_above_255 ⟨0, none, 0, false, none, 1, [], false, [], false⟩
      (.DirectSendMsg 0 (List.replicate 255 7)) (.DirectSendMsg 0 (List.replicate 256 7))
      (by decide) (by decide) (by decide) (by decide)⟩

/-- C6: after a fragment with a foreign stream id is received (and
dropped) in an arbitrary defragmentation state, a subsequent legitimate
stream — header followed by its fragments in order — reassembles exactly
the new stream's bytes: the header reinitialises the stream id, declared
count, buffer and next-expected index, so nothing from the dropped state
leaks into the assembled message. -/
theorem c6_recovery_after_foreign_fragment (r : ReaderContext) (badSid badFid : Nat)
    (junk : Bytes) (sid nf : Nat) (m : NetworkMessage) (ds : List Bytes)
    (hbad : badSid ≠ r.current_stream_id) (hm : isError m = false)
    (hnf : nf = 1 + ds.length) (h255 : nf ≤ 255) (hne : ds ≠ []) :
    runReaderMM r (.Stream (.Fragment badSid badFid junk)
        :: .Stream (.Header sid nf m) :: fragUnits sid 0 ds)
      = some (⟨sid, none, nf, nf⟩, [withPayload m (payload m ++ ds.flatten)]) := by
  have hdrop : handleStream r (.Fragment badSid badFid junk)
      = some ({ r with num_fragments := 0, fragment_index := 0 }, none) := by
    simp [handleStream, hbad]
  have hheader : handleStream { r with num_fragments := 0, fragment_index := 0 }
      (.Header sid nf m) = some (⟨sid, some m, 1, nf⟩, none) := by
    simp [handleStream]
  have hassemble := readerAssemble ds sid 0 nf m hm (by omega) h255 hne
  simp only [runReaderMM, hdrop, hheader]
  rw [hassemble]
  simp

/-- Witness for C6: recovery from a foreign fragment into a fresh
two-fragment stream. -/
theorem c6_recovery_after_foreign_fragment_witness :
    ((9 : Nat) ≠ (⟨7, some (.DirectSendMsg 1 [1, 2]), 2, 3⟩ : ReaderContext).current_stream_id ∧
      isError (.RpcRequest 4 11 [10, 20]) = false ∧
      (2 : Nat) = 1 + ([[30]] : List Bytes).length ∧ (2 : Nat) ≤ 255 ∧
      ([[30]] : List Bytes) ≠ []) ∧
    runReaderMM ⟨7, some (.DirectSendMsg 1 [1, 2]), 2, 3⟩
        (.Stream (.Fragment 9 2 [5])
          :: .Stream (.Header 8 2 (.RpcRequest 4 11 [10, 20])) :: fragUnits 8 0 [[30]])
      = some (⟨8, none, 2, 2⟩,
          [withPayload (.RpcRequest 4 11 [10, 20])
            (payload (.RpcRequest 4 11 [10, 20]) ++ ([[30]] : List Bytes).flatten)]) :=
  ⟨⟨by decide, by decide, by decide, by decide, by decide⟩,
    c6_recovery_after_foreign_fragment ⟨7, some (.DirectSendMsg 1 [1, 2]), 2, 3⟩ 9 2 [5] 8 2
      (.RpcRequest 4 11 [10, 20]) [[30]] (by decide) (by decide) (by decide)
      (by decide) (by decide)⟩

/-- C7: an RPC response whose request id is not registered in the
outbound RPC tracker bumps the miss counter and is dropped: the tracker
is unchanged, nothing is forwarded to any application queue, no
completion task is spawned, and the reader does not panic. -/
theorem c7_unmatched_rpc_response_counted_and_dropped (apps : Nat → Option AppStub)
    (tracker : List Nat) (rid : Nat) (d : Bytes) (h : rid ∉ tracker) :
    handleMessage apps tracker (.RpcResponse rid d)
      = some (tracker, { missCount := 1, missBytes := d.length }) := by
  simp [handleMessage, h]

/-- Witness for C7: a response id absent from a nonempty tracker. -/
theorem c7_unmatched_rpc_response_witness :
    ((42 : Nat) ∉ ([1, 2, 3] : List Nat)) ∧
    handleMessage (fun _ => none) [1, 2, 3] (.RpcResponse 42 [8, 8])
      = some ([1, 2, 3], { missCount := 1, missBytes := ([8, 8] : Bytes).length }) :=
  ⟨by decide,
    c7_unmatched_rpc_response_counted_and_dropped (fun _ => none) [1, 2, 3] 42 [8, 8] (by decide)⟩

/-- C8: delivery of a completed inbound RPC request or direct-send
message to its application queue is one non-blocking attempt: with the
queue full the message is dropped and the inbound-drop message and byte
counters are bumped; otherwise it is forwarded and the read message and
byte counters are bumped.  In both cases the result is a total function
of the state — the reader never waits for queue capacity. -/
theorem c8_forward_single_nonblocking_attempt (apps : Nat → Option AppStub) (app : AppStub)
    (tracker : List Nat) (pid rid : Nat) (d : Bytes)
    (happ : apps pid = some app) (hpid : app.protocol_id = pid) :
    handleMessage apps tracker (.RpcRequest pid rid d)
      = some (tracker,
          if app.queue_full then
            { dropMessages := 1, dropBytes := d.length }
          else
            { forwarded := [(pid, .RpcRequest pid rid d)], readMessages := 1,
              readBytes := d.length }) ∧
    handleMessage apps tracker (.DirectSendMsg pid d)
      = some (tracker,
          if app.queue_full then
            { dropMessages := 1, dropBytes := d.length }
          else
            { forwarded := [(pid, .DirectSendMsg pid d)], readMessages := 1,
              readBytes := d.length }) := by
  cases hfull : app.queue_full <;>
    simp [handleMessage, forward, happ, hpid, hfull, dataLen, payload]

/-- Witness for C8: one registered application with a full queue. -/
theorem c8_forward_single_nonblocking_attempt_witness :
    ((fun p => if p = 4 then some (⟨4, true⟩ : AppStub) else none) 4 = some ⟨4, true⟩ ∧
      (⟨4, true⟩ : AppStub).protocol_id = 4) ∧
    (handleMessage (fun p => if p = 4 then some (⟨4, true⟩ : AppStub) else none) [5]
        (.RpcRequest 4 9 [1, 2, 3])
      = some ([5],
          if (⟨4, true⟩ : AppStub).queue_full then
            { dropMessages := 1, dropBytes := ([1, 2, 3] : Bytes).length }
          else
            { forwarded := [(4, .RpcRequest 4 9 [1, 2, 3])], readMessages := 1,
              readBytes := ([1, 2, 3] : Bytes).length }) ∧
    handleMessage (fun p => if p = 4 then some (⟨4, true⟩ : AppStub) else none) [5]
        (.DirectSendMsg 4 [1, 2, 3])
      = some ([5],
          if (⟨4, true⟩ : AppStub).queue_full then
            { dropMessages := 1, dropBytes := ([1, 2, 3] : Bytes).length }
          else
            { forwarded := [(4, .DirectSendMsg 4 [1, 2, 3])], readMessages := 1,
              readBytes := ([1, 2, 3] : Bytes).length })) :=
  ⟨⟨by decide, by decide⟩,
    c8_forward_single_nonblocking_attempt
      (fun p => if p = 4 then some (⟨4, true⟩ : AppStub) else none) ⟨4, true⟩ [5] 4 9 [1, 2, 3]
      (by decide) (by decide)⟩

/-- Whether a framing unit is a stream fragment. -/
def isStreamFragment : MultiplexMessage → Bool
  | .Stream (.Fragment _ _ _) => true
  | _ => false

theorem dispatchedOf_map_none (o : Option (ReaderContext × List NetworkMessage))
    (h : dispatchedOf o = []) :
    dispatchedOf (o.map (fun p => (p.1, (none : Option NetworkMessage).toList ++ p.2))) = [] := by
  cases o <;> simp_all [dispatchedOf]

set_option maxRecDepth 1000000 in
/-- C9 counterexample: a stream header declaring 0 fragments followed by
255 in-sequence fragments on the same stream id does dispatch the
buffered message to routing — the 8-bit next-expected index wraps mod 256
back to the declared count — refuting the claim that such a header's
message is never dispatched. -/
theorem c9_counterexample :
    dispatchedOf (runReaderMM ⟨0, none, 0, 0⟩
        (.Stream (.Header 3 0 (.DirectSendMsg 5 [1, 2, 3]))
          :: (List.range 255).map (fun i => .Stream (.Fragment 3 (i + 1) []))))
      = [.DirectSendMsg 5 [1, 2, 3]] := by
  decide

/-- C9 amended: after a stream header declaring 0 or 1 total fragments,
completion is only checked after an accepted fragment increments the
next-expected index (which starts at 1), so no run of fewer than 255
further fragment units dispatches the buffered message — it stays in the
assembly buffer until a later header supersedes it; the only way it is
ever dispatched is the 8-bit index wrapping mod 256 onto the declared
count, which takes at least 255 consecutive in-sequence fragments. -/
theorem c9_amended_short_header_not_dispatched_before_wrap :
    ∀ (units : List MultiplexMessage) (r : ReaderContext),
      (∀ u ∈ units, isStreamFragment u = true) →
      r.num_fragments ≤ 1 → (r.num_fragments = 1 → 1 ≤ r.fragment_index) →
      r.fragment_index + units.length ≤ 255 →
      dispatchedOf (runReaderMM r units) = [] := by
  intro units
  induction units with
  | nil =>
    intro r _ _ _ _
    rfl
  | cons u rest ih =>
    intro r hfr hnf hnf1 hbound
    have hu : isStreamFragment u = true := hfr u (by simp)
    have hrest : ∀ v ∈ rest, isStreamFragment v = true := fun v hv => hfr v (by simp [hv])
    rcases u with m | f
    · simp [isStreamFragment] at hu
    rcases f with ⟨s1, n1, m1⟩ | ⟨sid, fid, d⟩
    · simp [isStreamFragment] at hu
    simp only [runReaderMM]
    simp only [List.length_cons] at hbound
    by_cases hsid : sid ≠ r.current_stream_id
    · have hstep : handleStream r (.Fragment sid fid d)
          = some ({ r with num_fragments := 0, fragment_index := 0 }, none) := by
        simp [handleStream, hsid]
      rw [hstep]
      exact dispatchedOf_map_none _ (ih _ hrest (by simp) (by simp) (by simp; omega))
    · by_cases hfid : fid ≠ r.fragment_index
      · have hstep : handleStream r (.Fragment sid fid d)
            = some ({ r with num_fragments := 0, fragment_index := 0 }, none) := by
          simp [handleStream, hsid, hfid]
        rw [hstep]
        exact dispatchedOf_map_none _ (ih _ hrest (by simp) (by simp) (by simp; omega))
      · rcases hlm : r.large_message with _ | lm
        · have hstep : handleStream r (.Fragment sid fid d) = some (r, none) := by
            simp [handleStream, hsid, hfid, hlm]
          rw [hstep]
          exact dispatchedOf_map_none _ (ih _ hrest hnf hnf1 (by omega))
        · rcases happ : appendPayload lm d with _ | lm1
          · have hstep : handleStream r (.Fragment sid fid d) = none := by
              simp [handleStream, hsid, hfid, hlm, happ]
            rw [hstep]
            rfl
          · have hmod : (r.fragment_index + 1) % 256 = r.fragment_index + 1 :=
              Nat.mod_eq_of_lt (by omega)
            have hne : (r.fragment_index + 1) % 256 ≠ r.num_fragments := by
              rw [hmod]
              have hcases : r.num_fragments = 0 ∨ r.num_fragments = 1 := by omega
              rcases hcases with hc | hc
              · omega
              · have := hnf1 hc
                omega
            have hstep : handleStream r (.Fragment sid fid d)
                = some (⟨r.current_stream_id, some lm1, (r.fragment_index + 1) % 256,
                    r.num_fragments⟩, none) := by
              simp [handleStream, hsid, hfid, hlm, happ, hne]
            rw [hstep]
            apply dispatchedOf_map_none
            apply ih _ hrest
            · exact hnf
            · intro h1
              show 1 ≤ (r.fragment_index + 1) % 256
              rw [hmod]
              omega
            · show (r.fragment_index + 1) % 256 + rest.length ≤ 255
              rw [hmod]
              omega

/-- Witness for the amended C9: a count-1 header state followed by one
in-sequence fragment produces no dispatch. -/
theorem c9_amended_witness :
    ((∀ u ∈ [MultiplexMessage.Stream (.Fragment 3 1 [9])], isStreamFragment u = true) ∧
      (⟨3, some (.DirectSendMsg 5 [1, 2]), 1, 1⟩ : ReaderContext).num_fragments ≤ 1 ∧
      ((⟨3, some (.DirectSendMsg 5 [1, 2]), 1, 1⟩ : ReaderContext).num_fragments = 1 →
        1 ≤ (⟨3, some (.DirectSendMsg 5 [1, 2]), 1, 1⟩ : ReaderContext).fragment_index) ∧
      (⟨3, some (.DirectSendMsg 5 [1, 2]), 1, 1⟩ : ReaderContext).fragment_index +
        ([MultiplexMessage.Stream (.Fragment 3 1 [9])]).length ≤ 255) ∧
    dispatchedOf (runReaderMM ⟨3, some (.DirectSendMsg 5 [1, 2]), 1, 1⟩
        [MultiplexMessage.Stream (.Fragment 3 1 [9])]) = [] :=
  ⟨⟨by decide, by decide, fun h => by decide, by decide⟩,
    c9_amended_short_header_not_dispatched_before_wrap
      [MultiplexMessage.Stream (.Fragment 3 1 [9])] ⟨3, some (.DirectSendMsg 5 [1, 2]), 1, 1⟩
      (by decide) (by decide) (fun h => by decide) (by decide)⟩

/-- C10: whenever the writer loop exits — normal queue closed,
high-priority queue closed, a dequeued disconnect command, a socket
write failure, or the shutdown signal observed, under any environment —
it closes the shutdown signal before the task ends. -/
theorem c10_writer_exit_closes_shutdown_signal :
    ∀ (envs : List Env) (w : WriterContext),
      (writerRun w envs).outcome = .stopped → (writerRun w envs).closerClosed = true := by
  intro envs
  induction envs with
  | nil =>
    intro w h
    simp [writerRun] at h
  | cons e rest ih =>
    intro w h
    simp only [writerRun] at h ⊢
    cases hs : writerStepE w e
    case emit mm w1 =>
      rw [hs] at h
      simp at h ⊢
      exact ih w1 h
    case stop w1 =>
      simp
    case blocked w1 =>
      rw [hs] at h
      simp at h ⊢
      exact ih w1 h
    case panicked w1 =>
      rw [hs] at h
      simp at h

/-- Witness for C10: the writer dequeues a disconnect command, stops,
and the shutdown signal is closed. -/
theorem c10_writer_exit_closes_shutdown_signal_witness :
    (writerRun ⟨0, none, 0, false, none, 1, [.Error disconnectCommand], false, [], false⟩
        [quietEnv]).outcome = .stopped ∧
    (writerRun ⟨0, none, 0, false, none, 1, [.Error disconnectCommand], false, [], false⟩
        [quietEnv]).closerClosed = true :=
  ⟨by decide,
    c10_writer_exit_closes_shutdown_signal [quietEnv]
      ⟨0, none, 0, false, none, 1, [.Error disconnectCommand], false, [], false⟩ (by decide)⟩

/-! ## Stream non-interleaving discipline (C4) -/

/-- One step of the wire-discipline automaton: state is the active
stream (id, remaining fragment count), `none` when no stream is open.
Whole messages are always allowed; a header only with no open stream; a
fragment only with a matching id, decrementing the remaining count. -/
def streamAccept (st : Option (Nat × Nat)) (mm : MultiplexMessage) : Option (Option (Nat × Nat)) :=
  match mm, st with
  | .Message _, st => some st
  | .Stream (.Header sid nf _), none => some (if nf ≤ 1 then none else some (sid, nf - 1))
  | .Stream (.Header _ _ _), some _ => none
  | .Stream (.Fragment sid _ _), some st1 =>
    if sid = st1.1 then some (if st1.2 ≤ 1 then none else some (st1.1, st1.2 - 1)) else none
  | .Stream (.Fragment _ _ _), none => none

/-- Whether a trace of framing units respects the discipline from a
given automaton state: stream units of two different streams never
interleave, and a new header appears only after the previous stream's
last fragment. -/
def streamAccepts (st : Option (Nat × Nat)) : List MultiplexMessage → Bool
  | [] => true
  | mm :: rest =>
    match streamAccept st mm with
    | none => false
    | some st1 => streamAccepts st1 rest

/-- The automaton state a writer state corresponds to: the open stream's
id and the number of fragments still needed to drain the remaining
bytes. -/
def absState (w : WriterContext) : Option (Nat × Nat) :=
  w.large_message.map
    (fun rest => (w.stream_request_id, numFragmentsCalc rest.length w.max_frame_size))

/-- Writer-state invariant: positive frame size, a nonempty remainder
for any in-flight large message, and any staged message oversized. -/
def InvW (w : WriterContext) : Prop :=
  0 < w.max_frame_size ∧
  (∀ rest, w.large_message = some rest → rest ≠ []) ∧
  (∀ m, w.next_large_msg = some m → w.max_frame_size < dataLen m)

theorem nextLarge_accept (w : WriterContext) (rest : Bytes) (mm : MultiplexMessage)
    (w1 : WriterContext) (h : InvW w) (hlm : w.large_message = some rest)
    (hn : nextLarge w = some (mm, w1)) :
    streamAccept (absState w) mm = some (absState w1) ∧ InvW w1 := by
  obtain ⟨h1, h2, h3⟩ := h
  have hne : rest ≠ [] := h2 rest hlm
  have hpos : 0 < rest.length := List.length_pos.mpr hne
  by_cases hlen : w.max_frame_size < rest.length
  · have heval : nextLarge w
        = some (.Stream (.Fragment w.stream_request_id ((w.large_fragment_id + 1) % 256)
              (rest.take w.max_frame_size)),
            { w with large_message := some (rest.drop w.max_frame_size),
                     large_fragment_id := (w.large_fragment_id + 1) % 256,
                     send_large := false }) := by
      simp [nextLarge, hlm, hlen]
    rw [heval] at hn
    simp only [Option.some.injEq, Prod.mk.injEq] at hn
    obtain ⟨hmm, hw1⟩ := hn
    subst hmm
    subst hw1
    have hk := numFragmentsCalc_step rest.length w.max_frame_size h1 hlen
    have hk2 := numFragmentsCalc_two rest.length w.max_frame_size h1 hlen
    constructor
    · have habs : absState w
          = some (w.stream_request_id, numFragmentsCalc rest.length w.max_frame_size) := by
        simp [absState, hlm]
      have habs1 : absState ⟨w.stream_request_id, some (rest.drop w.max_frame_size),
            (w.large_fragment_id + 1) % 256, false, w.next_large_msg, w.max_frame_size,
            w.to_send, w.to_send_closed, w.to_send_high_prio, w.to_send_high_prio_closed⟩
          = some (w.stream_request_id,
              numFragmentsCalc (rest.length - w.max_frame_size) w.max_frame_size) := by
        simp [absState]
      rw [habs, habs1]
      simp only [streamAccept, if_true]
      rw [if_neg (by omega)]
      simp only [Option.some.injEq, Prod.mk.injEq]
      exact ⟨trivial, by omega⟩
    · refine ⟨h1, ?_, h3⟩
      intro r2 hr2
      have hr2e : r2 = rest.drop w.max_frame_size := by simpa using hr2.symm
      subst hr2e
      intro hnil
      have hlength := congrArg List.length hnil
      simp at hlength
      omega
  · have heval : nextLarge w
        = some (.Stream (.Fragment w.stream_request_id ((w.large_fragment_id + 1) % 256) rest),
            { w with large_message := none,
                     large_fragment_id := (w.large_fragment_id + 1) % 256,
                     send_large := false }) := by
      simp [nextLarge, hlm, hlen]
    rw [heval] at hn
    simp only [Option.some.injEq, Prod.mk.injEq] at hn
    obtain ⟨hmm, hw1⟩ := hn
    subst hmm
    subst hw1
    push_neg at hlen
    have hk := numFragmentsCalc_one rest.length w.max_frame_size h1 hpos hlen
    constructor
    · have habs : absState w
          = some (w.stream_request_id, numFragmentsCalc rest.length w.max_frame_size) := by
        simp [absState, hlm]
      have habs1 : absState ⟨w.stream_request_id, none,
            (w.large_fragment_id + 1) % 256, false, w.next_large_msg, w.max_frame_size,
            w.to_send, w.to_send_closed, w.to_send_high_prio, w.to_send_high_prio_closed⟩
          = none := by
        simp [absState]
      rw [habs, habs1]
      simp only [streamAccept, if_true]
      rw [if_pos (by omega)]
    · exact ⟨h1, by simp, h3⟩

theorem startLarge_accept (w : WriterContext) (msg : NetworkMessage) (mm : MultiplexMessage)
    (w1 : WriterContext) (h : InvW w) (hlm : w.large_message = none)
    (hbig : w.max_frame_size < dataLen msg)
    (hs : startLarge w msg = some (mm, w1)) :
    streamAccept (absState w) mm = some (absState w1) ∧ InvW w1 := by
  obtain ⟨h1, h2, h3⟩ := h
  have hnf2 : 2 ≤ numFragmentsCalc (dataLen msg) w.max_frame_size :=
    numFragmentsCalc_two _ _ h1 hbig
  have herr : isError msg = false := by
    cases msg
    case Error c => simp [dataLen, payload] at hbig
    all_goals rfl
  by_cases h255 : 255 < numFragmentsCalc (dataLen msg) w.max_frame_size
  · simp [startLarge, h255] at hs
  · have heval : startLarge w msg
        = some (.Stream (.Header ((w.stream_request_id + 1) % 4294967296)
              (numFragmentsCalc (dataLen msg) w.max_frame_size)
              (withPayload msg ((payload msg).take w.max_frame_size))),
            ⟨(w.stream_request_id + 1) % 4294967296,
              some ((payload msg).drop w.max_frame_size), 0, false, w.next_large_msg,
              w.max_frame_size, w.to_send, w.to_send_closed, w.to_send_high_prio,
              w.to_send_high_prio_closed⟩) := by
      simp [startLarge, h255, herr, Nat.not_lt.mpr (le_of_lt hbig)]
    rw [heval] at hs
    simp only [Option.some.injEq, Prod.mk.injEq] at hs
    obtain ⟨hmm, hw1⟩ := hs
    subst hmm
    subst hw1
    have hdlen : ((payload msg).drop w.max_frame_size).length = dataLen msg - w.max_frame_size := by
      simp [dataLen]
    have hk := numFragmentsCalc_step (dataLen msg) w.max_frame_size h1 hbig
    constructor
    · have habs : absState w = none := by simp [absState, hlm]
      have habs1 : absState ⟨(w.stream_request_id + 1) % 4294967296,
            some ((payload msg).drop w.max_frame_size), 0, false, w.next_large_msg,
            w.max_frame_size, w.to_send, w.to_send_closed, w.to_send_high_prio,
            w.to_send_high_prio_closed⟩
          = some ((w.stream_request_id + 1) % 4294967296,
              numFragmentsCalc (dataLen msg - w.max_frame_size) w.max_frame_size) := by
        simp [absState, hdlen]
      rw [habs, habs1]
      simp only [streamAccept]
      rw [if_neg (by omega)]
      simp only [Option.some.injEq, Prod.mk.injEq]
      exact ⟨trivial, by omega⟩
    · refine ⟨h1, ?_, h3⟩
      intro r2 hr2
      have hr2e : r2 = (payload msg).drop w.max_frame_size := by simpa using hr2.symm
      subst hr2e
      intro hnil
      have hlength := congrArg List.length hnil
      rw [hdlen] at hlength
      simp at hlength
      omega

theorem onTryMsg_accept (w : WriterContext) (msg : NetworkMessage) (mm : MultiplexMessage)
    (w1 : WriterContext) (h : InvW w) (ho : onTryMsg w msg = some (mm, w1)) :
    streamAccept (absState w) mm = some (absState w1) ∧ InvW w1 := by
  obtain ⟨h1, h2, h3⟩ := h
  by_cases hbig : w.max_frame_size < dataLen msg
  · rw [onTryMsg, if_pos hbig] at ho
    rcases hlm : w.large_message with _ | rest
    · rw [nextLarge] at ho
      simp [hlm] at ho
    · have hinv2 : InvW { w with next_large_msg := some msg } := by
        refine ⟨h1, h2, ?_⟩
        intro m hm
        have hme : m = msg := by simpa using hm.symm
        subst hme
        exact hbig
      exact nextLarge_accept { w with next_large_msg := some msg } rest mm w1 hinv2 hlm ho
  · rw [onTryMsg, if_neg hbig] at ho
    simp only [Option.some.injEq, Prod.mk.injEq] at ho
    obtain ⟨hmm, hw1⟩ := ho
    subst hmm
    subst hw1
    exact ⟨rfl, h1, h2, h3⟩

theorem tryHighPrio_accept (w : WriterContext) (mm : MultiplexMessage) (w1 : WriterContext)
    (h : InvW w) (ht : tryHighPrioNextMsg w = .got mm w1) :
    streamAccept (absState w) mm = some (absState w1) ∧ InvW w1 := by
  obtain ⟨h1, h2, h3⟩ := h
  rcases hq : w.to_send_high_prio with _ | ⟨msg, rest⟩
  · rw [tryHighPrioNextMsg, hq] at ht
    simp at ht
  · rw [tryHighPrioNextMsg, hq] at ht
    dsimp only at ht
    rcases ho : onTryMsg { w with to_send_high_prio := rest } msg with _ | ⟨mm2, w2⟩
    · rw [ho] at ht
      simp at ht
    · rw [ho] at ht
      dsimp only at ht
      simp at ht
      obtain ⟨hmm, hw⟩ := ht
      subst hmm
      subst hw
      exact onTryMsg_accept { w with to_send_high_prio := rest } msg mm2 w2 ⟨h1, h2, h3⟩ ho

theorem tryNextMsg_accept (w : WriterContext) (mm : MultiplexMessage) (w1 : WriterContext)
    (h : InvW w) (ht : tryNextMsg w = .got mm w1) :
    streamAccept (absState w) mm = some (absState w1) ∧ InvW w1 := by
  obtain ⟨h1, h2, h3⟩ := h
  rw [tryNextMsg] at ht
  rcases hh : tryHighPrioNextMsg w with _ | _ | ⟨mm2, w2⟩ <;> rw [hh] at ht <;> dsimp only at ht
  · -- noMsg: poll the normal queue
    rcases hq : w.to_send with _ | ⟨msg, rest⟩ <;> rw [hq] at ht <;> dsimp only at ht
    · -- empty queue
      by_cases hc : w.to_send_closed
      · simp [hc] at ht
      · simp only [hc, Bool.false_eq_true, if_false] at ht
        rcases hn : nextLarge w with _ | ⟨mm3, w3⟩ <;> rw [hn] at ht <;> dsimp only at ht
        · simp at ht
        · simp at ht
          obtain ⟨hmm, hw⟩ := ht
          subst hmm
          subst hw
          rcases hlm : w.large_message with _ | rest2
          · rw [nextLarge] at hn
            simp [hlm] at hn
          · exact nextLarge_accept w rest2 mm3 w3 ⟨h1, h2, h3⟩ hlm hn
    · -- message available on the normal queue
      rcases ho : onTryMsg { w with to_send := rest } msg with _ | ⟨mm2, w2⟩ <;>
        rw [ho] at ht <;> dsimp only at ht
      · simp at ht
      · simp at ht
        obtain ⟨hmm, hw⟩ := ht
        subst hmm
        subst hw
        exact onTryMsg_accept { w with to_send := rest } msg mm2 w2 ⟨h1, h2, h3⟩ ho
  · simp at ht
  · simp at ht
    obtain ⟨hmm, hw⟩ := ht
    subst hmm
    subst hw
    exact tryHighPrio_accept w mm2 w2 ⟨h1, h2, h3⟩ hh

theorem chooseMM_chosen_accept (w : WriterContext) (sf : Bool) (mm : MultiplexMessage)
    (w1 : WriterContext) (h : InvW w) (hc : chooseMM w sf = .chosen mm w1) :
    streamAccept (absState w) mm = some (absState w1) ∧ InvW w1 := by
  obtain ⟨sid, lm, fid, sl, nl, mfs, ts, tsc, hp, hpc⟩ := w
  rw [chooseMM] at hc
  rcases lm with _ | rest <;>
    simp only [Option.isSome_none, Option.isSome_some, Bool.false_eq_true, if_false,
      if_true] at hc
  · -- no stream in flight
    rcases nl with _ | msg <;> dsimp only at hc
    · -- nothing staged: try high prio, then the select
      rcases hh : tryHighPrioNextMsg ⟨sid, none, fid, sl, none, mfs, ts, tsc, hp, hpc⟩
        with _ | _ | ⟨mm2, w2⟩ <;> rw [hh] at hc <;> dsimp only at hc
      · rcases ts with _ | ⟨msg, rest⟩ <;> dsimp only at hc
        · split_ifs at hc <;> simp at hc
        · by_cases hbig : mfs < dataLen msg
          · rw [if_pos hbig] at hc
            rcases hst : startLarge ⟨sid, none, fid, sl, none, mfs, rest, tsc, hp, hpc⟩ msg
              with _ | ⟨mm2, w2⟩ <;> rw [hst] at hc <;> dsimp only at hc
            · simp at hc
            · simp at hc
              obtain ⟨hmm, hw⟩ := hc
              subst hmm
              subst hw
              exact startLarge_accept ⟨sid, none, fid, sl, none, mfs, rest, tsc, hp, hpc⟩
                msg mm2 w2 ⟨h.1, h.2.1, h.2.2⟩ rfl hbig hst
          · rw [if_neg hbig] at hc
            simp at hc
            obtain ⟨hmm, hw⟩ := hc
            subst hmm
            subst hw
            exact ⟨rfl, h.1, h.2.1, h.2.2⟩
      · simp at hc
      · simp at hc
        obtain ⟨hmm, hw⟩ := hc
        subst hmm
        subst hw
        exact tryHighPrio_accept _ mm2 w2 ⟨h.1, h.2.1, h.2.2⟩ hh
    · -- a staged oversized message: start its stream
      rcases hst : startLarge ⟨sid, none, fid, sl, none, mfs, ts, tsc, hp, hpc⟩ msg
        with _ | ⟨mm2, w2⟩ <;> rw [hst] at hc <;> dsimp only at hc
      · simp at hc
      · simp at hc
        obtain ⟨hmm, hw⟩ := hc
        subst hmm
        subst hw
        exact startLarge_accept ⟨sid, none, fid, sl, none, mfs, ts, tsc, hp, hpc⟩
          msg mm2 w2 ⟨h.1, h.2.1, by simp⟩ rfl (h.2.2 msg rfl) hst
  · -- a stream is in flight
    by_cases hsl : (sl || nl.isSome) = true
    · rw [if_pos hsl] at hc
      rcases hn : nextLarge ⟨sid, some rest, fid, sl, nl, mfs, ts, tsc, hp, hpc⟩
        with _ | ⟨mm2, w2⟩ <;> rw [hn] at hc <;> dsimp only at hc
      · simp at hc
      · simp at hc
        obtain ⟨hmm, hw⟩ := hc
        subst hmm
        subst hw
        exact nextLarge_accept _ rest mm2 w2 ⟨h.1, h.2.1, h.2.2⟩ rfl hn
    · rw [if_neg hsl] at hc
      rcases htn : tryNextMsg ⟨sid, some rest, fid, sl, nl, mfs, ts, tsc, hp, hpc⟩
        with _ | _ | ⟨mm2, w2⟩ <;> rw [htn] at hc <;> dsimp only at hc
      · simp at hc
      · simp at hc
      · simp at hc
        obtain ⟨hmm, hw⟩ := hc
        subst hmm
        subst hw
        exact tryNextMsg_accept _ mm2 w2 ⟨h.1, h.2.1, h.2.2⟩ htn

theorem chooseMM_wait_eq (w : WriterContext) (sf : Bool) (w1 : WriterContext)
    (hc : chooseMM w sf = .wait w1) : w1 = w := by
  obtain ⟨sid, lm, fid, sl, nl, mfs, ts, tsc, hp, hpc⟩ := w
  rw [chooseMM] at hc
  rcases lm with _ | rest <;>
    simp only [Option.isSome_none, Option.isSome_some, Bool.false_eq_true, if_false,
      if_true] at hc
  · rcases nl with _ | msg <;> dsimp only at hc
    · rcases hh : tryHighPrioNextMsg ⟨sid, none, fid, sl, none, mfs, ts, tsc, hp, hpc⟩
        with _ | _ | ⟨mm2, w2⟩ <;> rw [hh] at hc <;> dsimp only at hc
      · rcases ts with _ | ⟨msg, rest⟩ <;> dsimp only at hc
        · split_ifs at hc <;> simp at hc
          exact hc.symm
        · by_cases hbig : mfs < dataLen msg
          · rw [if_pos hbig] at hc
            rcases hst : startLarge ⟨sid, none, fid, sl, none, mfs, rest, tsc, hp, hpc⟩ msg
              with _ | ⟨mm2, w2⟩ <;> rw [hst] at hc <;> simp at hc
          · rw [if_neg hbig] at hc
            simp at hc
      · simp at hc
      · simp at hc
    · rcases hst : startLarge ⟨sid, none, fid, sl, none, mfs, ts, tsc, hp, hpc⟩ msg
        with _ | ⟨mm2, w2⟩ <;> rw [hst] at hc <;> simp at hc
  · by_cases hsl : (sl || nl.isSome) = true
    · rw [if_pos hsl] at hc
      rcases hn : nextLarge ⟨sid, some rest, fid, sl, nl, mfs, ts, tsc, hp, hpc⟩
        with _ | ⟨mm2, w2⟩ <;> rw [hn] at hc <;> simp at hc
    · rw [if_neg hsl] at hc
      rcases htn : tryNextMsg ⟨sid, some rest, fid, sl, nl, mfs, ts, tsc, hp, hpc⟩
        with _ | _ | ⟨mm2, w2⟩ <;> rw [htn] at hc <;> simp at hc

theorem writerStepE_emit_accept (w : WriterContext) (e : Env) (mm : MultiplexMessage)
    (w1 : WriterContext) (h : InvW w) (hs : writerStepE w e = .emit mm w1) :
    streamAccept (absState w) mm = some (absState w1) ∧ InvW w1 := by
  rw [writerStepE] at hs
  rcases hcm : chooseMM (applyEnv w e) e.shutdownFired with ⟨mm2, w2⟩ | w2 | w2 | w2 <;>
    rw [hcm] at hs <;> dsimp only at hs
  · split_ifs at hs <;> simp at hs
    obtain ⟨hmm, hw⟩ := hs
    subst hmm
    subst hw
    exact chooseMM_chosen_accept (applyEnv w e) e.shutdownFired mm2 w2 h hcm
  · simp at hs
  · simp at hs
  · simp at hs

theorem writerStepE_blocked_eq (w : WriterContext) (e : Env) (w1 : WriterContext)
    (hs : writerStepE w e = .blocked w1) : w1 = applyEnv w e := by
  rw [writerStepE] at hs
  rcases hcm : chooseMM (applyEnv w e) e.shutdownFired with ⟨mm2, w2⟩ | w2 | w2 | w2 <;>
    rw [hcm] at hs <;> dsimp only at hs
  · split_ifs at hs <;> simp at hs
  · simp at hs
  · simp at hs
    rw [← hs]
    exact chooseMM_wait_eq (applyEnv w e) e.shutdownFired w2 hcm
  · simp at hs

/-- C4: under any environment (arbitrary arrivals on both queues, queue
closures, shutdown, write failures) and from any writer state satisfying
the invariant, the emitted framing units respect the stream discipline:
once a header with a stream id is on the wire, every subsequent stream
unit up to that stream's final fragment carries the same id, and a new
header (for a staged oversized message — of which the writer holds at
most one, `next_large_msg` being a single option) appears only after the
active stream's final fragment. -/
theorem c4_no_stream_interleaving (envs : List Env) (w : WriterContext) (h : InvW w) :
    streamAccepts (absState w) (writerRun w envs).trace = true := by
  induction envs generalizing w with
  | nil => rfl
  | cons e rest ih =>
    simp only [writerRun]
    cases hs : writerStepE w e
    case emit mm w1 =>
      obtain ⟨hacc, hinv⟩ := writerStepE_emit_accept w e mm w1 h hs
      dsimp only
      rw [streamAccepts, hacc]
      exact ih w1 hinv
    case stop w1 => rfl
    case blocked w1 =>
      have hw1 := writerStepE_blocked_eq w e w1 hs
      subst hw1
      exact ih (applyEnv w e) h
    case panicked w1 => rfl

/-- Witness for C4: a mid-stream state (3 remaining bytes at frame size
2) with a staged oversized message, run for 6 quiet iterations; the
emitted trace respects the stream discipline. -/
theorem c4_no_stream_interleaving_witness :
    InvW ⟨5, some [1, 2, 3], 0, false, some (.DirectSendMsg 2 [1, 2, 3, 4]), 2,
        [], false, [], false⟩ ∧
    streamAccepts
        (absState ⟨5, some [1, 2, 3], 0, false, some (.DirectSendMsg 2 [1, 2, 3, 4]), 2,
          [], false, [], false⟩)
        (writerRun ⟨5, some [1, 2, 3], 0, false, some (.DirectSendMsg 2 [1, 2, 3, 4]), 2,
          [], false, [], false⟩ (List.replicate 6 quietEnv)).trace = true :=
  ⟨⟨by decide, by simp, fun m hm => by cases hm; decide⟩,
    c4_no_stream_interleaving (List.replicate 6 quietEnv)
      ⟨5, some [1, 2, 3], 0, false, some (.DirectSendMsg 2 [1, 2, 3, 4]), 2,
        [], false, [], false⟩
      ⟨by decide, by simp, fun m hm => by cases hm; decide⟩⟩

end Peer
